import Mathlib

/-!
Shallow embedding of the buffer-pool subsystem of the bustub repository:
`src/buffer/lru_k_replacer.cpp`, `src/buffer/buffer_pool_manager.cpp`,
`src/storage/page/page_guard.cpp`.

Conventions of the embedding:
* `frame_id_t` values handled by the claims are non-negative, so frame ids
  are `Nat`; `size_t` counters are `Nat` (truncated subtraction is only used
  where the source cannot underflow in the states the theorems touch).
* `page_id_t` is a signed integer, modelled as `Int` so that the sentinel
  `INVALID_PAGE_ID = -1` is representable.
* `std::map<frame_id_t, LRUKNode>` is an association list kept sorted by key
  in ascending order, mirroring the map's iteration order; `std::unordered_map`
  is a plain association list (no claim depends on its iteration order).
* A `BUSTUB_ASSERT` failure, a null-pointer dereference, or a latch
  acquisition that would block forever in a single-threaded run are modelled
  as `none` in an `Option`-valued result.
* Calls into the external `DiskManager` and the deallocate hook are recorded
  in an observable trace.
-/

namespace BusTub

/-- `frame_id_t` (non-negative in every state the claims touch). -/
abbrev FrameId := Nat

/-- `page_id_t` (a signed 32-bit integer in the source; overflow of the
monotone allocation counter is irrelevant to the claims). -/
abbrev PageId := Int

/-- `INVALID_PAGE_ID` sentinel. -/
def INVALID_PAGE_ID : PageId := -1

/-! ## LRU-K replacer (`src/buffer/lru_k_replacer.cpp`) -/

/-- `LRUKNode`: `k_`, `fid_`, `history_` (a deque, oldest timestamp first,
newest last), `is_evictable_`.  The class body lives in the header, which is
not part of the sources; the default `is_evictable_ = false` for a freshly
constructed node is modelled from the spec ("allocate a node with
`evictable=false`"). -/
structure LRUKNode where
  k : Nat
  fid : FrameId
  history : List Nat
  is_evictable : Bool
deriving DecidableEq, Repr

/-- `LRUKNode::HasInfBackwardKDist`: `history_.size() < k_`. -/
def LRUKNode.hasInfBackwardKDist (n : LRUKNode) : Bool :=
  n.history.length < n.k

/-- `LRUKNode::GetEarliestTimestamp`: `*history_.begin()` (front of the
deque), `0` when the history is empty. -/
def LRUKNode.getEarliestTimestamp (n : LRUKNode) : Nat :=
  n.history.headD 0

/-- `LRUKNode::GetBackwardKDist(current_timestamp)`: returns `size_t(-1)`
when the history holds fewer than `k_` entries, otherwise
`current_timestamp - history_.back()` (the back of the deque is the MOST
recent timestamp). -/
def LRUKNode.getBackwardKDist (n : LRUKNode) (current : Nat) : Nat :=
  if n.hasInfBackwardKDist then 2 ^ 64 - 1
  else current - n.history.getLastD 0

/-- `LRUKNode::InsertHistoryTimestamp`: pop the front when the deque already
holds `k_` entries, then push the new timestamp at the back. -/
def LRUKNode.insertHistoryTimestamp (n : LRUKNode) (current : Nat) : LRUKNode :=
  { n with history := (if n.history.length ≥ n.k then n.history.tail else n.history) ++ [current] }

/-- First-occurrence lookup in the node store (`node_store_.find`). -/
def lookupNode : List (FrameId × LRUKNode) → FrameId → Option LRUKNode
  | [], _ => none
  | e :: rest, fid => if e.1 = fid then some e.2 else lookupNode rest fid

/-- `node_store_.insert(std::make_pair(fid, node))`: ordered insertion that
keeps the keys ascending and leaves the store unchanged when the key is
already present (as `std::map::insert` does). -/
def insertNode (fid : FrameId) (node : LRUKNode) : List (FrameId × LRUKNode) → List (FrameId × LRUKNode)
  | [] => [(fid, node)]
  | e :: rest =>
    if fid < e.1 then (fid, node) :: e :: rest
    else if fid = e.1 then e :: rest
    else e :: insertNode fid node rest

/-- `node_store_.erase(it)`: remove the (first) entry with the given key. -/
def eraseNode (fid : FrameId) : List (FrameId × LRUKNode) → List (FrameId × LRUKNode)
  | [] => []
  | e :: rest => if e.1 = fid then rest else e :: eraseNode fid rest

/-- In-place mutation of the node found by `find` (`it->second = ...`). -/
def updateNode (fid : FrameId) (node : LRUKNode) : List (FrameId × LRUKNode) → List (FrameId × LRUKNode)
  | [] => []
  | e :: rest => if e.1 = fid then (fid, node) :: rest else e :: updateNode fid node rest

/-- `LRUKReplacer` state: `node_store_`, `current_timestamp_`, `curr_size_`,
`replacer_size_`, `k_`.  The zero defaults of the counters are the header's
in-class initialisers (header not in the sources; spec: "a monotonic logical
timestamp; the current count of evictable nodes"). -/
structure LRUKReplacer where
  node_store : List (FrameId × LRUKNode)
  current_timestamp : Nat
  curr_size : Nat
  replacer_size : Nat
  k : Nat
deriving DecidableEq, Repr

/-- `LRUKReplacer::LRUKReplacer(num_frames, k)`. -/
def initReplacer (num_frames k : Nat) : LRUKReplacer :=
  ⟨[], 0, 0, num_frames, k⟩

/-- Loop state of the scan in `LRUKReplacer::Evict`: `max_dist`, `has_inf`,
`inf_max`, and the candidate `evict_frame_id` (`none` models `-1`). -/
structure EvictScan where
  max_dist : Nat
  has_inf : Bool
  inf_max : Nat
  victim : Option FrameId
deriving DecidableEq, Repr

/-- One iteration of the `for (auto &node : node_store_)` loop in
`LRUKReplacer::Evict`. -/
def evictStep (current : Nat) (acc : EvictScan) (e : FrameId × LRUKNode) : EvictScan :=
  if e.2.is_evictable = false then acc
  else if e.2.hasInfBackwardKDist then
    if current - e.2.getEarliestTimestamp ≥ acc.inf_max then
      ⟨acc.max_dist, true, current - e.2.getEarliestTimestamp, some e.1⟩
    else ⟨acc.max_dist, true, acc.inf_max, acc.victim⟩
  else if acc.has_inf then acc
  else
    if e.2.getBackwardKDist current ≥ acc.max_dist then
      ⟨e.2.getBackwardKDist current, acc.has_inf, acc.inf_max, some e.1⟩
    else acc

/-- The frame chosen by the scan in `LRUKReplacer::Evict` (the value of
`evict_frame_id` after the loop; `none` models `-1`). -/
def LRUKReplacer.evictChoice (r : LRUKReplacer) : Option FrameId :=
  (r.node_store.foldl (evictStep r.current_timestamp) ⟨0, false, 0, none⟩).victim

/-- `LRUKReplacer::Remove`: asserts `frame_id < replacer_size_`, silently
ignores unknown frames, asserts the node is evictable, then erases it and
decrements `curr_size_`.  `none` models an assertion failure. -/
def LRUKReplacer.removeOp (r : LRUKReplacer) (fid : FrameId) : Option LRUKReplacer :=
  if fid < r.replacer_size then
    match lookupNode r.node_store fid with
    | none => some r
    | some n =>
      if n.is_evictable then
        some { r with node_store := eraseNode fid r.node_store, curr_size := r.curr_size - 1 }
      else none
  else none

/-- `LRUKReplacer::Evict`: run the scan; on a hit, `Remove` the victim and
report it, otherwise report no victim.  The outer `Option` models a crash
(an assertion failure inside `Remove`); the inner `Option` is the boolean
result together with the output frame id. -/
def LRUKReplacer.evictOp (r : LRUKReplacer) : Option (Option FrameId × LRUKReplacer) :=
  match r.evictChoice with
  | none => some (none, r)
  | some fid =>
    match r.removeOp fid with
    | none => none
    | some r2 => some (some fid, r2)

/-- The node-construction-and-insert tail of `LRUKReplacer::RecordAccess`:
`LRUKNode node(k_, frame_id); node.InsertHistoryTimestamp(current_timestamp_++);
node_store_.insert(...)`. -/
def LRUKReplacer.trackNew (r : LRUKReplacer) (fid : FrameId) : LRUKReplacer :=
  let node := (LRUKNode.mk r.k fid [] false).insertHistoryTimestamp r.current_timestamp
  { r with node_store := insertNode fid node r.node_store,
           current_timestamp := r.current_timestamp + 1 }

/-- `LRUKReplacer::RecordAccess`: asserts `frame_id < replacer_size_`; for a
tracked frame, appends a timestamp to its history; for a new frame with a
full store, first evicts (returning without tracking when nothing is
evictable), then tracks the frame. -/
def LRUKReplacer.recordAccess (r : LRUKReplacer) (fid : FrameId) : Option LRUKReplacer :=
  if fid < r.replacer_size then
    match lookupNode r.node_store fid with
    | none =>
      if r.node_store.length ≥ r.replacer_size then
        match r.evictOp with
        | none => none
        | some (none, _) => some r
        | some (some _, r2) => some (r2.trackNew fid)
      else some (r.trackNew fid)
    | some n =>
      some { r with
              node_store := updateNode fid (n.insertHistoryTimestamp r.current_timestamp) r.node_store,
              current_timestamp := r.current_timestamp + 1 }
  else none

/-- `LRUKReplacer::SetEvictable`: silently ignore unknown frames; adjust
`curr_size_` on a flag transition and store the flag. -/
def LRUKReplacer.setEvictable (r : LRUKReplacer) (fid : FrameId) (flag : Bool) : LRUKReplacer :=
  match lookupNode r.node_store fid with
  | none => r
  | some n =>
    let cs :=
      if n.is_evictable = false ∧ flag = true then r.curr_size + 1
      else if n.is_evictable = true ∧ flag = false then r.curr_size - 1
      else r.curr_size
    { r with curr_size := cs,
             node_store := updateNode fid { n with is_evictable := flag } r.node_store }

/-- `LRUKReplacer::Size`. -/
def LRUKReplacer.size (r : LRUKReplacer) : Nat := r.curr_size

/-- The four public mutating operations of the replacer. -/
inductive ReplacerOp where
  | record (fid : FrameId)
  | setEvict (fid : FrameId) (flag : Bool)
  | evict
  | remove (fid : FrameId)
deriving DecidableEq, Repr

/-- Apply one public replacer operation; `none` models an assertion
failure. -/
def LRUKReplacer.applyOp (r : LRUKReplacer) : ReplacerOp → Option LRUKReplacer
  | .record fid => r.recordAccess fid
  | .setEvict fid flag => some (r.setEvictable fid flag)
  | .evict => (r.evictOp).map (fun x => x.2)
  | .remove fid => r.removeOp fid

/-- Run a sequence of replacer operations from a state. -/
def LRUKReplacer.runOps (r : LRUKReplacer) : List ReplacerOp → Option LRUKReplacer
  | [] => some r
  | op :: rest =>
    match r.applyOp op with
    | none => none
    | some r2 => r2.runOps rest

/-- Number of tracked nodes whose `evictable` flag is true. -/
def countEvictable (l : List (FrameId × LRUKNode)) : Nat :=
  l.countP (fun e => e.2.is_evictable)

/-! ## Buffer pool manager (`src/buffer/buffer_pool_manager.cpp`) -/

/-- Symbolic contents of a frame's byte buffer: zero-filled after
`ResetMemory`, or the on-disk bytes of a page after
`disk_manager_->ReadPage`. -/
inductive PageData where
  | zeroed
  | fromDisk (pid : PageId)
deriving DecidableEq, Repr

/-- State of one page's reader-writer latch in a single-threaded run. -/
inductive RWLatch where
  | free
  | readLocked (holders : Nat)
  | writeLocked
deriving DecidableEq, Repr

/-- One `Page` object: `page_id_`, `pin_count_`, `is_dirty_`, the byte
buffer, and the page latch.  The field defaults of a freshly constructed
`Page` (header not in the sources) are modelled from the spec: a free frame
resides no page (sentinel id), pin count `0`, clean. -/
structure Page where
  page_id : PageId
  pin_count : Nat
  is_dirty : Bool
  data : PageData
  latch : RWLatch
deriving DecidableEq, Repr

/-- A default-constructed `Page` (one cell of `new Page[pool_size]`). -/
def Page.defaultPage : Page :=
  ⟨INVALID_PAGE_ID, 0, false, PageData.zeroed, RWLatch.free⟩

/-- `Page::RLatch` in a single-threaded run: `none` when the acquisition
would block. -/
def Page.rLatch (p : Page) : Option Page :=
  match p.latch with
  | RWLatch.free => some { p with latch := RWLatch.readLocked 1 }
  | RWLatch.readLocked n => some { p with latch := RWLatch.readLocked (n + 1) }
  | RWLatch.writeLocked => none

/-- `Page::WLatch` in a single-threaded run: `none` when the acquisition
would block. -/
def Page.wLatch (p : Page) : Option Page :=
  match p.latch with
  | RWLatch.free => some { p with latch := RWLatch.writeLocked }
  | _ => none

/-- `Page::RUnlatch`; `none` when the latch is not read-held. -/
def Page.rUnlatch (p : Page) : Option Page :=
  match p.latch with
  | RWLatch.readLocked (n + 1) =>
    some { p with latch := if n = 0 then RWLatch.free else RWLatch.readLocked n }
  | _ => none

/-- `Page::WUnlatch`; `none` when the latch is not write-held. -/
def Page.wUnlatch (p : Page) : Option Page :=
  match p.latch with
  | RWLatch.writeLocked => some { p with latch := RWLatch.free }
  | _ => none

/-- A call issued to the external `DiskManager` or the deallocate hook. -/
inductive DiskOp where
  | read (pid : PageId)
  | write (pid : PageId)
  | deallocate (pid : PageId)
deriving DecidableEq, Repr

/-- First-occurrence lookup in the page table (`page_table_.find`). -/
def ptLookup : List (PageId × FrameId) → PageId → Option FrameId
  | [], _ => none
  | e :: rest, pid => if e.1 = pid then some e.2 else ptLookup rest pid

/-- `page_table_[pid] = fid` (insert or assign). -/
def ptInsert (pid : PageId) (fid : FrameId) : List (PageId × FrameId) → List (PageId × FrameId)
  | [] => [(pid, fid)]
  | e :: rest => if e.1 = pid then (pid, fid) :: rest else e :: ptInsert pid fid rest

/-- `page_table_.erase(pid)`. -/
def ptErase (pid : PageId) : List (PageId × FrameId) → List (PageId × FrameId)
  | [] => []
  | e :: rest => if e.1 = pid then rest else e :: ptErase pid rest

/-- `BufferPoolManager` state: the frame array `pages_` (indexed by frame
id), the replacer, `free_list_`, `page_table_`, `next_page_id_`, plus the
observable trace of Disk Manager calls. -/
structure BufferPoolManager where
  pool_size : Nat
  pages : List Page
  replacer : LRUKReplacer
  free_list : List FrameId
  page_table : List (PageId × FrameId)
  next_page_id : PageId
  disk_trace : List DiskOp
deriving DecidableEq, Repr

/-- `BufferPoolManager::BufferPoolManager(pool_size, ..., replacer_k, ...)`:
a default-constructed frame array and every frame on the free list. -/
def initBPM (pool_size replacer_k : Nat) : BufferPoolManager :=
  ⟨pool_size, List.replicate pool_size Page.defaultPage,
   initReplacer pool_size replacer_k, List.range pool_size, [], 0, []⟩

/-- `&pages_[fid]` (reading). -/
def BufferPoolManager.pageAt (b : BufferPoolManager) (fid : FrameId) : Page :=
  b.pages.getD fid Page.defaultPage

/-- Writing through `&pages_[fid]`. -/
def BufferPoolManager.setPage (b : BufferPoolManager) (fid : FrameId) (p : Page) : BufferPoolManager :=
  { b with pages := b.pages.set fid p }

/-- `BufferPoolManager::GetPage`: `nullptr` for the sentinel id or an id
missing from the page table, otherwise `&pages_[page_table_[pid]]`
(represented by the frame id). -/
def BufferPoolManager.getPage (b : BufferPoolManager) (pid : PageId) : Option FrameId :=
  if pid = INVALID_PAGE_ID then none else ptLookup b.page_table pid

/-- `BufferPoolManager::FlushPage`: unknown id returns false; otherwise
write the frame's bytes through the Disk Manager and clear the dirty
flag. -/
def BufferPoolManager.flushPage (b : BufferPoolManager) (pid : PageId) : Bool × BufferPoolManager :=
  match b.getPage pid with
  | none => (false, b)
  | some fid =>
    let p := b.pageAt fid
    (true, { b with pages := b.pages.set fid { p with is_dirty := false },
                    disk_trace := b.disk_trace ++ [DiskOp.write pid] })

/-- The frame-recycling steps shared verbatim by `NewPage` and `FetchPage`:
flush the victim frame if dirty, then unmap its old page id from the page
table. -/
def BufferPoolManager.prepareFrame (b : BufferPoolManager) (fid : FrameId) : BufferPoolManager :=
  let p := b.pageAt fid
  let b1 := if p.is_dirty then (b.flushPage p.page_id).2 else b
  if p.page_id ≠ INVALID_PAGE_ID then { b1 with page_table := ptErase p.page_id b1.page_table }
  else b1

/-- The tail of `BufferPoolManager::NewPage` once a frame has been obtained:
the range assertion, dirty writeback, unmapping, `ResetMemory`,
`AllocatePage`, metadata setup, page-table insertion, and the replacer
calls. -/
def BufferPoolManager.newPageFrom (b : BufferPoolManager) (fid : FrameId) :
    Option (Option PageId × BufferPoolManager) :=
  if fid < b.pool_size then
    let b1 := b.prepareFrame fid
    let allocated := b1.next_page_id
    let p := { b1.pageAt fid with
                data := PageData.zeroed, page_id := allocated, pin_count := 1, is_dirty := false }
    let b2 := { b1.setPage fid p with
                 next_page_id := b1.next_page_id + 1,
                 page_table := ptInsert allocated fid b1.page_table }
    match b2.replacer.recordAccess fid with
    | none => none
    | some rep => some (some allocated, { b2 with replacer := rep.setEvictable fid false })
  else none

/-- `BufferPoolManager::NewPage`: take a frame from the free list, else
evict; `nullptr` when eviction finds no victim. -/
def BufferPoolManager.newPage (b : BufferPoolManager) :
    Option (Option PageId × BufferPoolManager) :=
  match b.free_list with
  | [] =>
    match b.replacer.evictOp with
    | none => none
    | some (none, _) => some (none, b)
    | some (some fid, rep) => BufferPoolManager.newPageFrom { b with replacer := rep } fid
  | fid :: rest => BufferPoolManager.newPageFrom { b with free_list := rest } fid

/-- The miss path of `BufferPoolManager::FetchPage` once a frame has been
obtained: dirty writeback, unmapping, metadata setup, page-table insertion,
`ResetMemory`, the replacer calls, and the Disk Manager read. -/
def BufferPoolManager.fetchPageMiss (b : BufferPoolManager) (pid : PageId) (fid : FrameId) :
    Option (Option FrameId × BufferPoolManager) :=
  let b1 := b.prepareFrame fid
  let p := { b1.pageAt fid with page_id := pid, pin_count := 1, is_dirty := false }
  let b2 := { b1.setPage fid p with page_table := ptInsert pid fid b1.page_table }
  let b3 := b2.setPage fid { b2.pageAt fid with data := PageData.zeroed }
  match b3.replacer.recordAccess fid with
  | none => none
  | some rep =>
    let b4 := { b3 with replacer := rep.setEvictable fid false }
    some (some fid,
      { b4.setPage fid { b4.pageAt fid with data := PageData.fromDisk pid } with
         disk_trace := b4.disk_trace ++ [DiskOp.read pid] })

/-- `BufferPoolManager::FetchPage`: on a `GetPage` hit, return the resident
page as is; otherwise obtain a frame (free list, else eviction; `nullptr`
when eviction finds no victim) and run the miss path. -/
def BufferPoolManager.fetchPage (b : BufferPoolManager) (pid : PageId) :
    Option (Option FrameId × BufferPoolManager) :=
  match b.getPage pid with
  | some fid => some (some fid, b)
  | none =>
    match b.free_list with
    | [] =>
      match b.replacer.evictOp with
      | none => none
      | some (none, _) => some (none, b)
      | some (some fid, rep) => BufferPoolManager.fetchPageMiss { b with replacer := rep } pid fid
    | fid :: rest => BufferPoolManager.fetchPageMiss { b with free_list := rest } pid fid

/-- `BufferPoolManager::UnpinPage`: false for an unknown id or a zero pin
count; otherwise decrement the pin count, assign the `is_dirty` argument to
the frame's dirty flag, and mark the frame evictable when the pin count
reaches zero. -/
def BufferPoolManager.unpinPage (b : BufferPoolManager) (pid : PageId) (is_dirty : Bool) :
    Bool × BufferPoolManager :=
  match b.getPage pid with
  | none => (false, b)
  | some fid =>
    let p := b.pageAt fid
    if p.pin_count = 0 then (false, b)
    else
      let p2 := { p with pin_count := p.pin_count - 1, is_dirty := is_dirty }
      let b1 := b.setPage fid p2
      if p2.pin_count = 0 then (true, { b1 with replacer := b1.replacer.setEvictable fid true })
      else (true, b1)

/-- `BufferPoolManager::DeletePage`: true for an unknown id; false for a
pinned page; otherwise flush if dirty, unmap, remove from the replacer,
reset the frame, return it to the free list, and invoke the deallocate
hook. -/
def BufferPoolManager.deletePage (b : BufferPoolManager) (pid : PageId) :
    Option (Bool × BufferPoolManager) :=
  match b.getPage pid with
  | none => some (true, b)
  | some fid =>
    if (b.pageAt fid).pin_count ≠ 0 then some (false, b)
    else
      let b1 := if (b.pageAt fid).is_dirty then (b.flushPage pid).2 else b
      let b2 := { b1 with page_table := ptErase pid b1.page_table }
      match b2.replacer.removeOp fid with
      | none => none
      | some rep =>
        let b3 := { b2 with replacer := rep }
        let p := { b3.pageAt fid with data := PageData.zeroed, page_id := INVALID_PAGE_ID }
        some (true, { b3.setPage fid p with
                       free_list := b3.free_list ++ [fid],
                       disk_trace := b3.disk_trace ++ [DiskOp.deallocate pid] })

/-! ## Page guards (`src/storage/page/page_guard.cpp`) -/

/-- `BasicPageGuard`: `bpm_` (modelled by whether the pointer is non-null),
`page_` (the frame the page pointer addresses, `none` for `nullptr`), and
`is_dirty_`. -/
structure BasicPageGuard where
  has_bpm : Bool
  page : Option FrameId
  is_dirty : Bool
deriving DecidableEq, Repr

/-- `BasicPageGuard::Drop`: a null `bpm_` or null `page_` returns without
any action; otherwise unpin through the pool and null the guard. -/
def BasicPageGuard.drop (g : BasicPageGuard) (b : BufferPoolManager) :
    BasicPageGuard × BufferPoolManager :=
  if g.has_bpm = false ∨ g.page = none then (g, b)
  else
    match g.page with
    | none => (g, b)
    | some fid =>
      let b1 := (b.unpinPage (b.pageAt fid).page_id g.is_dirty).2
      (⟨false, none, g.is_dirty⟩, b1)

/-- `ReadPageGuard` wraps a `BasicPageGuard`. -/
structure ReadPageGuard where
  guard : BasicPageGuard
deriving DecidableEq, Repr

/-- `ReadPageGuard::Drop`: `guard_.page_->RUnlatch(); guard_.Drop();` — the
page pointer is dereferenced with no null check (`none` models the null
dereference, and an unlatch of a latch this thread does not read-hold). -/
def ReadPageGuard.drop (g : ReadPageGuard) (b : BufferPoolManager) :
    Option (ReadPageGuard × BufferPoolManager) :=
  match g.guard.page with
  | none => none
  | some fid =>
    match (b.pageAt fid).rUnlatch with
    | none => none
    | some p =>
      let r := g.guard.drop (b.setPage fid p)
      some (⟨r.1⟩, r.2)

/-- `WritePageGuard` wraps a `BasicPageGuard`. -/
structure WritePageGuard where
  guard : BasicPageGuard
deriving DecidableEq, Repr

/-- `WritePageGuard::Drop`: `guard_.page_->WUnlatch(); guard_.Drop();` — the
page pointer is dereferenced with no null check. -/
def WritePageGuard.drop (g : WritePageGuard) (b : BufferPoolManager) :
    Option (WritePageGuard × BufferPoolManager) :=
  match g.guard.page with
  | none => none
  | some fid =>
    match (b.pageAt fid).wUnlatch with
    | none => none
    | some p =>
      let r := g.guard.drop (b.setPage fid p)
      some (⟨r.1⟩, r.2)

/-- `BufferPoolManager::FetchPageWrite`: fetch, take the page's writer latch
when the fetch succeeded, and return the guard `{this, nullptr}` exactly as
the source constructs it. -/
def BufferPoolManager.fetchPageWrite (b : BufferPoolManager) (pid : PageId) :
    Option (WritePageGuard × BufferPoolManager) :=
  match b.fetchPage pid with
  | none => none
  | some (none, b1) => some (⟨⟨true, none, false⟩⟩, b1)
  | some (some fid, b1) =>
    match (b1.pageAt fid).wLatch with
    | none => none
    | some p => some (⟨⟨true, none, false⟩⟩, b1.setPage fid p)

/-- `BufferPoolManager::FetchPageRead`: fetch, take the page's reader latch
when the fetch succeeded, and return `{this, page}`. -/
def BufferPoolManager.fetchPageRead (b : BufferPoolManager) (pid : PageId) :
    Option (ReadPageGuard × BufferPoolManager) :=
  match b.fetchPage pid with
  | none => none
  | some (none, b1) => some (⟨⟨true, none, false⟩⟩, b1)
  | some (some fid, b1) =>
    match (b1.pageAt fid).rLatch with
    | none => none
    | some p => some (⟨⟨true, some fid, false⟩⟩, b1.setPage fid p)

/-! ## Spec-side definition for the refinement claim about backward-K distance -/

/-- Modelled from the spec: the backward-K distance of a node with a full
history window is "current_timestamp minus the k-th-most-recent (i.e., the
oldest retained) timestamp in its sliding window" — the front of the
deque. -/
def specBackwardKDist (n : LRUKNode) (current : Nat) : Nat :=
  current - n.history.headD 0

/-! ## Helper lemmas about the eviction scan -/

theorem evictStep_victim_isSome (c : Nat) (acc : EvictScan) (e : FrameId × LRUKNode)
    (h : acc.victim.isSome) : (evictStep c acc e).victim.isSome := by
  unfold evictStep
  split
  · exact h
  · split
    · split
      · rfl
      · exact h
    · split
      · exact h
      · split
        · rfl
        · exact h

theorem foldl_evictStep_victim_isSome (c : Nat) (l : List (FrameId × LRUKNode)) :
    ∀ acc : EvictScan, acc.victim.isSome → (l.foldl (evictStep c) acc).victim.isSome := by
  induction l with
  | nil => intro acc h; simpa using h
  | cons e rest ih =>
    intro acc h
    rw [List.foldl_cons]
    exact ih (evictStep c acc e) (evictStep_victim_isSome c acc e h)

theorem evictStep_evictable_victim (c : Nat) (e : FrameId × LRUKNode)
    (h : e.2.is_evictable = true) :
    (evictStep c ⟨0, false, 0, none⟩ e).victim = some e.1 := by
  by_cases hinf : e.2.hasInfBackwardKDist = true
  · simp [evictStep, h, hinf]
  · simp [evictStep, h, hinf]

theorem scan_victim_none_iff (c : Nat) (l : List (FrameId × LRUKNode)) :
    (l.foldl (evictStep c) ⟨0, false, 0, none⟩).victim = none ↔
      ∀ e ∈ l, e.2.is_evictable = false := by
  induction l with
  | nil => simp
  | cons e rest ih =>
    by_cases h : e.2.is_evictable = true
    · constructor
      · intro hnone
        exfalso
        have hs : (evictStep c ⟨0, false, 0, none⟩ e).victim.isSome := by
          rw [evictStep_evictable_victim c e h]; rfl
        have := foldl_evictStep_victim_isSome c rest _ hs
        rw [List.foldl_cons] at hnone
        rw [hnone] at this
        exact Bool.noConfusion this
      · intro hall
        exact absurd (hall e (List.mem_cons_self e rest)) (by simp [h])
    · have hfalse : e.2.is_evictable = false := by
        cases hb : e.2.is_evictable
        · rfl
        · exact absurd hb h
      have hstep : evictStep c ⟨0, false, 0, none⟩ e = ⟨0, false, 0, none⟩ := by
        unfold evictStep
        simp [hfalse]
      rw [List.foldl_cons, hstep, ih]
      constructor
      · intro hall
        intro x hx
        rcases List.mem_cons.mp hx with hx | hx
        · rw [hx]; exact hfalse
        · exact hall x hx
      · intro hall x hx
        exact hall x (List.mem_cons_of_mem e hx)

theorem evictChoice_none_iff (r : LRUKReplacer) :
    r.evictChoice = none ↔ ∀ e ∈ r.node_store, e.2.is_evictable = false :=
  scan_victim_none_iff r.current_timestamp r.node_store

/-! ## Helper lemmas about the node store -/

theorem countEvictable_erase (fid : FrameId) (n : LRUKNode) :
    ∀ l : List (FrameId × LRUKNode), lookupNode l fid = some n →
      countEvictable l = countEvictable (eraseNode fid l) + (if n.is_evictable then 1 else 0) := by
  intro l
  induction l with
  | nil => intro h; exact Option.noConfusion h
  | cons e rest ih =>
    intro h
    unfold lookupNode at h
    by_cases he : e.1 = fid
    · rw [if_pos he] at h
      have hn : n = e.2 := (Option.some.injEq _ _).mp h.symm
      unfold eraseNode
      rw [if_pos he, hn]
      simp [countEvictable, List.countP_cons]
    · rw [if_neg he] at h
      unfold eraseNode
      rw [if_neg he]
      have := ih h
      simp only [countEvictable, List.countP_cons] at *
      omega

theorem countEvictable_update (fid : FrameId) (n node : LRUKNode) :
    ∀ l : List (FrameId × LRUKNode), lookupNode l fid = some n →
      countEvictable (updateNode fid node l) + (if n.is_evictable then 1 else 0) =
        countEvictable l + (if node.is_evictable then 1 else 0) := by
  intro l
  induction l with
  | nil => intro h; exact Option.noConfusion h
  | cons e rest ih =>
    intro h
    unfold lookupNode at h
    by_cases he : e.1 = fid
    · rw [if_pos he] at h
      have hn : n = e.2 := (Option.some.injEq _ _).mp h.symm
      unfold updateNode
      rw [if_pos he, hn]
      simp only [countEvictable, List.countP_cons]
      omega
    · rw [if_neg he] at h
      unfold updateNode
      rw [if_neg he]
      have := ih h
      simp only [countEvictable, List.countP_cons] at *
      omega

theorem countEvictable_insert (fid : FrameId) (node : LRUKNode) :
    ∀ l : List (FrameId × LRUKNode), lookupNode l fid = none →
      countEvictable (insertNode fid node l) =
        countEvictable l + (if node.is_evictable then 1 else 0) := by
  intro l
  induction l with
  | nil => intro _; simp [insertNode, countEvictable, List.countP_cons]
  | cons e rest ih =>
    intro h
    unfold lookupNode at h
    by_cases he : e.1 = fid
    · rw [if_pos he] at h; exact Option.noConfusion h
    · rw [if_neg he] at h
      unfold insertNode
      by_cases hlt : fid < e.1
      · rw [if_pos hlt]
        simp only [countEvictable, List.countP_cons]
      · rw [if_neg hlt]
        have hne : ¬ fid = e.1 := fun hx => he hx.symm
        rw [if_neg hne]
        have := ih h
        simp only [countEvictable, List.countP_cons] at *
        omega

theorem lookupNode_none_erase (fid v : FrameId) :
    ∀ l : List (FrameId × LRUKNode), lookupNode l fid = none →
      lookupNode (eraseNode v l) fid = none := by
  intro l
  induction l with
  | nil => intro _; rfl
  | cons e rest ih =>
    intro h
    unfold lookupNode at h
    by_cases he : e.1 = fid
    · rw [if_pos he] at h; exact Option.noConfusion h
    · rw [if_neg he] at h
      unfold eraseNode
      by_cases hv : e.1 = v
      · rw [if_pos hv]; exact h
      · rw [if_neg hv]
        unfold lookupNode
        rw [if_neg he]
        exact ih h

theorem eraseNode_of_lookup_none (fid : FrameId) :
    ∀ l : List (FrameId × LRUKNode), lookupNode l fid = none → eraseNode fid l = l := by
  intro l
  induction l with
  | nil => intro _; rfl
  | cons e rest ih =>
    intro h
    unfold lookupNode at h
    by_cases he : e.1 = fid
    · rw [if_pos he] at h; exact Option.noConfusion h
    · rw [if_neg he] at h
      unfold eraseNode
      rw [if_neg he, ih h]

theorem insertHistory_is_evictable (n : LRUKNode) (t : Nat) :
    (n.insertHistoryTimestamp t).is_evictable = n.is_evictable := rfl

theorem trackNew_eq (r : LRUKReplacer) (fid : FrameId) :
    r.trackNew fid =
      { r with node_store := insertNode fid ⟨r.k, fid, [r.current_timestamp], false⟩ r.node_store,
               current_timestamp := r.current_timestamp + 1 } := by
  unfold LRUKReplacer.trackNew LRUKNode.insertHistoryTimestamp
  split <;> rfl

/-! ## The `curr_size` invariant -/

/-- The invariant of claim C9: `curr_size_` counts the evictable nodes. -/
def replacerInv (r : LRUKReplacer) : Prop :=
  r.curr_size = countEvictable r.node_store

theorem inv_removeOp {r r2 : LRUKReplacer} {fid : FrameId}
    (hinv : replacerInv r) (h : r.removeOp fid = some r2) : replacerInv r2 := by
  unfold LRUKReplacer.removeOp at h
  by_cases hrange : fid < r.replacer_size
  · rw [if_pos hrange] at h
    cases hl : lookupNode r.node_store fid with
    | none =>
      simp only [hl] at h
      cases h
      exact hinv
    | some n =>
      simp only [hl] at h
      by_cases he : n.is_evictable = true
      · rw [if_pos he] at h
        cases h
        have hcnt := countEvictable_erase fid n r.node_store hl
        rw [if_pos he] at hcnt
        unfold replacerInv at hinv
        show r.curr_size - 1 = countEvictable (eraseNode fid r.node_store)
        omega
      · rw [if_neg he] at h
        exact Option.noConfusion h
  · rw [if_neg hrange] at h
    exact Option.noConfusion h

theorem inv_setEvictable (r : LRUKReplacer) (fid : FrameId) (flag : Bool)
    (hinv : replacerInv r) : replacerInv (r.setEvictable fid flag) := by
  unfold replacerInv at hinv
  unfold replacerInv LRUKReplacer.setEvictable
  cases hl : lookupNode r.node_store fid with
  | none => simp only [hl]; exact hinv
  | some n =>
    simp only [hl]
    have hcnt := countEvictable_update fid n { n with is_evictable := flag } r.node_store hl
    have hflag : ({ n with is_evictable := flag } : LRUKNode).is_evictable = flag := rfl
    rw [hflag] at hcnt
    show (if n.is_evictable = false ∧ flag = true then r.curr_size + 1
          else if n.is_evictable = true ∧ flag = false then r.curr_size - 1
          else r.curr_size) =
        countEvictable (updateNode fid { n with is_evictable := flag } r.node_store)
    split
    · next hcond =>
      obtain ⟨h1, h2⟩ := hcond
      subst h2
      rw [h1] at hcnt
      simp at hcnt
      omega
    · split
      · next hcond =>
        obtain ⟨h1, h2⟩ := hcond
        subst h2
        rw [h1] at hcnt
        simp at hcnt
        omega
      · next hnot1 hnot2 =>
        have hsame : (if n.is_evictable = true then 1 else 0) = (if flag = true then 1 else 0) := by
          cases hev : n.is_evictable <;> cases hfl : flag <;> simp_all
        omega

theorem inv_evictOp {r r2 : LRUKReplacer} {o : Option FrameId}
    (hinv : replacerInv r) (h : r.evictOp = some (o, r2)) : replacerInv r2 := by
  unfold LRUKReplacer.evictOp at h
  cases hc : r.evictChoice with
  | none =>
    simp only [hc] at h
    cases h
    exact hinv
  | some fid =>
    simp only [hc] at h
    cases hr : r.removeOp fid with
    | none => rw [hr] at h; exact Option.noConfusion h
    | some r3 =>
      simp only [hr] at h
      cases h
      exact inv_removeOp hinv hr

theorem inv_trackNew {r : LRUKReplacer} {fid : FrameId}
    (hl : lookupNode r.node_store fid = none) (hinv : replacerInv r) :
    replacerInv (r.trackNew fid) := by
  rw [trackNew_eq]
  unfold replacerInv at hinv
  show r.curr_size = countEvictable (insertNode fid ⟨r.k, fid, [r.current_timestamp], false⟩ r.node_store)
  rw [countEvictable_insert fid _ r.node_store hl]
  simpa using hinv

theorem removeOp_lookup_none {r r2 : LRUKReplacer} {fid v : FrameId}
    (hl : lookupNode r.node_store fid = none) (h : r.removeOp v = some r2) :
    lookupNode r2.node_store fid = none := by
  unfold LRUKReplacer.removeOp at h
  by_cases hrange : v < r.replacer_size
  · rw [if_pos hrange] at h
    cases hv : lookupNode r.node_store v with
    | none =>
      simp only [hv] at h
      cases h
      exact hl
    | some n =>
      simp only [hv] at h
      by_cases he : n.is_evictable = true
      · rw [if_pos he] at h
        cases h
        exact lookupNode_none_erase fid v r.node_store hl
      · rw [if_neg he] at h
        exact Option.noConfusion h
  · rw [if_neg hrange] at h
    exact Option.noConfusion h

theorem removeOp_store {r r2 : LRUKReplacer} {v : FrameId}
    (h : r.removeOp v = some r2) :
    r2.node_store = eraseNode v r.node_store ∧ r2.current_timestamp = r.current_timestamp ∧
      r2.k = r.k := by
  unfold LRUKReplacer.removeOp at h
  by_cases hrange : v < r.replacer_size
  · rw [if_pos hrange] at h
    cases hv : lookupNode r.node_store v with
    | none =>
      simp only [hv] at h
      cases h
      exact ⟨(eraseNode_of_lookup_none v r.node_store hv).symm, rfl, rfl⟩
    | some n =>
      simp only [hv] at h
      by_cases he : n.is_evictable = true
      · rw [if_pos he] at h
        cases h
        exact ⟨rfl, rfl, rfl⟩
      · rw [if_neg he] at h
        exact Option.noConfusion h
  · rw [if_neg hrange] at h
    exact Option.noConfusion h

theorem inv_recordAccess {r r2 : LRUKReplacer} {fid : FrameId}
    (hinv : replacerInv r) (h : r.recordAccess fid = some r2) : replacerInv r2 := by
  unfold LRUKReplacer.recordAccess at h
  by_cases hrange : fid < r.replacer_size
  · rw [if_pos hrange] at h
    cases hl : lookupNode r.node_store fid with
    | some n =>
      simp only [hl] at h
      cases h
      have hcnt := countEvictable_update fid n (n.insertHistoryTimestamp r.current_timestamp)
        r.node_store hl
      rw [insertHistory_is_evictable] at hcnt
      unfold replacerInv at hinv
      show r.curr_size =
        countEvictable (updateNode fid (n.insertHistoryTimestamp r.current_timestamp) r.node_store)
      omega
    | none =>
      simp only [hl] at h
      by_cases hlen : r.node_store.length ≥ r.replacer_size
      · rw [if_pos hlen] at h
        cases he : r.evictOp with
        | none => rw [he] at h; exact Option.noConfusion h
        | some x =>
          obtain ⟨o, rp⟩ := x
          simp only [he] at h
          cases o with
          | none =>
            cases h
            exact hinv
          | some v =>
            cases h
            have hinv2 : replacerInv rp := inv_evictOp hinv he
            have hl2 : lookupNode rp.node_store fid = none := by
              unfold LRUKReplacer.evictOp at he
              cases hc : r.evictChoice with
              | none =>
                simp only [hc] at he
                exact absurd he (by simp)
              | some w =>
                simp only [hc] at he
                cases hr : r.removeOp w with
                | none => rw [hr] at he; exact Option.noConfusion he
                | some r3 =>
                  simp only [hr] at he
                  cases he
                  exact removeOp_lookup_none hl hr
            exact inv_trackNew hl2 hinv2
      · rw [if_neg hlen] at h
        cases h
        exact inv_trackNew hl hinv
  · rw [if_neg hrange] at h
    exact Option.noConfusion h

theorem inv_applyOp {r r2 : LRUKReplacer} {op : ReplacerOp}
    (hinv : replacerInv r) (h : r.applyOp op = some r2) : replacerInv r2 := by
  cases op with
  | record fid => exact inv_recordAccess hinv h
  | setEvict fid flag =>
    unfold LRUKReplacer.applyOp at h
    cases h
    exact inv_setEvictable r fid flag hinv
  | evict =>
    unfold LRUKReplacer.applyOp at h
    cases he : r.evictOp with
    | none => rw [he] at h; exact Option.noConfusion h
    | some x =>
      rw [he] at h
      obtain ⟨o, rp⟩ := x
      cases h
      exact inv_evictOp hinv he
  | remove fid => exact inv_removeOp hinv h

theorem inv_runOps {r r2 : LRUKReplacer} {ops : List ReplacerOp}
    (hinv : replacerInv r) (h : r.runOps ops = some r2) : replacerInv r2 := by
  induction ops generalizing r with
  | nil => cases h; exact hinv
  | cons op rest ih =>
    unfold LRUKReplacer.runOps at h
    cases ha : r.applyOp op with
    | none => rw [ha] at h; exact Option.noConfusion h
    | some r3 =>
      rw [ha] at h
      exact ih (inv_applyOp hinv ha) h

/-! ## Characterisation of `NewPage` failure -/

theorem newPageFrom_some_fst {b : BufferPoolManager} {fid : FrameId}
    {o : Option PageId} {b2 : BufferPoolManager}
    (h : b.newPageFrom fid = some (o, b2)) : o.isSome := by
  unfold BufferPoolManager.newPageFrom at h
  simp only [] at h
  split at h
  · split at h
    · exact Option.noConfusion h
    · cases h
      rfl
  · exact Option.noConfusion h

theorem newPage_none_iff (b : BufferPoolManager) :
    (∃ b2, b.newPage = some (none, b2)) ↔
      (b.free_list = [] ∧ b.replacer.evictChoice = none) := by
  cases hf : b.free_list with
  | cons fid rest =>
    simp only [BufferPoolManager.newPage, hf]
    constructor
    · rintro ⟨b2, h⟩
      exact Bool.noConfusion (newPageFrom_some_fst h)
    · rintro ⟨h1, _⟩
      exact List.noConfusion h1
  | nil =>
    simp only [BufferPoolManager.newPage, hf]
    cases he : b.replacer.evictOp with
    | none =>
      constructor
      · rintro ⟨b2, h⟩
        exact Option.noConfusion h
      · rintro ⟨_, h2⟩
        unfold LRUKReplacer.evictOp at he
        rw [h2] at he
        exact Option.noConfusion he
    | some x =>
      obtain ⟨o, rep⟩ := x
      cases o with
      | none =>
        constructor
        · intro _
          refine ⟨by trivial, ?_⟩
          unfold LRUKReplacer.evictOp at he
          cases hc : b.replacer.evictChoice with
          | none => rfl
          | some w =>
            simp only [hc] at he
            cases hr : b.replacer.removeOp w with
            | none => rw [hr] at he; exact Option.noConfusion he
            | some r3 =>
              simp only [hr] at he
              exact absurd he (by simp)
        · intro _
          exact ⟨b, rfl⟩
      | some fid =>
        constructor
        · rintro ⟨b2, h⟩
          exact Bool.noConfusion (newPageFrom_some_fst h)
        · rintro ⟨_, h2⟩
          unfold LRUKReplacer.evictOp at he
          rw [h2] at he
          exact absurd he (by simp)

/-! ## Concrete states used by the claim theorems -/

/-- The pool `BufferPoolManager(1, dm, 2)` right after its first `NewPage`:
page 0 resident in frame 0, pinned once, clean, tracked non-evictable. -/
def bpPinnedOne : BufferPoolManager :=
  ⟨1, [⟨0, 1, false, PageData.zeroed, RWLatch.free⟩],
   ⟨[(0, ⟨2, 0, [0], false⟩)], 1, 0, 1, 2⟩, [], [(0, 0)], 1, []⟩

/-- A pool state whose single resident page is pinned once and dirty. -/
def bDirtyPinned : BufferPoolManager :=
  ⟨1, [⟨0, 1, true, PageData.zeroed, RWLatch.free⟩],
   ⟨[(0, ⟨2, 0, [0], false⟩)], 1, 0, 1, 2⟩, [], [(0, 0)], 1, []⟩

/-- A replacer of capacity 1 whose store is full with one non-evictable
node. -/
def rFullStore : LRUKReplacer :=
  ⟨[(5, ⟨2, 5, [0], false⟩)], 1, 0, 1, 2⟩

/-! ## The claims -/

/-- C1: the claim says `fetch_page` on a resident page id increments the
frame's pin count, marks the frame non-evictable, and records an access.
The source's hit path (`GetPage` + early return) does none of that: below,
page 0 is resident with pin count 0 and an evictable, already-recorded
node, and `fetch_page(0)` returns the page with the WHOLE pool state
unchanged — pin count still 0, node still evictable, no new access
recorded. -/
theorem c1_fetch_hit_leaves_state_unchanged :
    ∃ b1 b2 : BufferPoolManager,
      (initBPM 2 2).newPage = some (some 0, b1) ∧
      b1.unpinPage 0 false = (true, b2) ∧
      (b2.pageAt 0).pin_count = 0 ∧
      lookupNode b2.replacer.node_store 0 = some ⟨2, 0, [0], true⟩ ∧
      b2.fetchPage 0 = some (some 0, b2) := by
  refine ⟨_, _, rfl, rfl, ?_, ?_, ?_⟩ <;> decide

/-- C2: the claim says `unpin_page(pid, false)` on an already-dirty frame
leaves the dirty flag set (OR-merge).  The source assigns
`page->is_dirty_ = is_dirty`, so the flag is overwritten: from a state with
pin count 1 and dirty flag set, `unpin_page(0, false)` succeeds and clears
the dirty flag. -/
theorem c2_unpin_false_clears_dirty :
    (bDirtyPinned.pageAt 0).is_dirty = true ∧
    (bDirtyPinned.pageAt 0).pin_count = 1 ∧
    ∃ b2, bDirtyPinned.unpinPage 0 false = (true, b2) ∧ (b2.pageAt 0).is_dirty = false := by
  refine ⟨by decide, by decide, _, rfl, ?_⟩
  decide

/-- C3: the claim says the backward-K distance of a full-history node is
current_timestamp minus the k-th-most-recent (oldest retained) timestamp
and that `Evict` picks the largest such distance.  The source computes
`current_timestamp - history_.back()` — the MOST recent timestamp.  With
k = 2: frame 0 accessed at times 0 and 3, frame 1 at times 1 and 2, both
evictable, current time 4.  The spec distance is 4 for frame 0 versus 3 for
frame 1, so frame 0 should be the victim; the code evicts frame 1. -/
theorem c3_evict_uses_most_recent_timestamp :
    ∃ r : LRUKReplacer,
      (initReplacer 10 2).runOps
        [.record 0, .record 1, .record 1, .record 0, .setEvict 0 true, .setEvict 1 true] =
        some r ∧
      lookupNode r.node_store 0 = some ⟨2, 0, [0, 3], true⟩ ∧
      lookupNode r.node_store 1 = some ⟨2, 1, [1, 2], true⟩ ∧
      (∀ e ∈ r.node_store, e.2.hasInfBackwardKDist = false) ∧
      specBackwardKDist ⟨2, 0, [0, 3], true⟩ r.current_timestamp = 4 ∧
      specBackwardKDist ⟨2, 1, [1, 2], true⟩ r.current_timestamp = 3 ∧
      r.evictChoice = some 1 := by
  refine ⟨_, rfl, ?_, ?_, ?_, ?_, ?_, ?_⟩ <;> decide

/-- C4: the claim says `fetch_page_write` returns a guard wrapping the
fetched page.  The source latches the fetched page but constructs the guard
as `{this, nullptr}`: on a fresh pool, `fetch_page(0)` succeeds with frame
0, `fetch_page_write(0)` leaves frame 0 write-latched, yet the returned
guard's page is null. -/
theorem c4_fetch_page_write_wraps_nullptr :
    ∃ b1 : BufferPoolManager,
      (initBPM 1 2).fetchPage 0 = some (some 0, b1) ∧
      ∃ (g : WritePageGuard) (b2 : BufferPoolManager),
        (initBPM 1 2).fetchPageWrite 0 = some (g, b2) ∧
        (b2.pageAt 0).latch = RWLatch.writeLocked ∧
        g.guard.page = none := by
  refine ⟨_, rfl, _, _, rfl, ?_, ?_⟩ <;> decide

/-- C5: the claim says destroying a null-page guard of EVERY variant
performs no action.  True for the basic guard, but `ReadPageGuard::Drop`
and `WritePageGuard::Drop` dereference `guard_.page_` with no null check,
so dropping a null read or write guard (e.g. the source of a move)
dereferences the null page instead of doing nothing. -/
theorem c5_null_guard_drop_dereferences :
    (BasicPageGuard.mk true none false).drop (initBPM 1 2) =
      (⟨true, none, false⟩, initBPM 1 2) ∧
    (ReadPageGuard.mk ⟨true, none, false⟩).drop (initBPM 1 2) = none ∧
    (WritePageGuard.mk ⟨true, none, false⟩).drop (initBPM 1 2) = none := by
  decide

/-- C6: the claim says `fetch_page` on the sentinel id fails and leaves no
trace.  The source's `GetPage` guard only covers the hit path; the miss
path runs: on a fresh pool of one frame, `fetch_page(INVALID_PAGE_ID)`
returns frame 0, installs the sentinel into the page table, consumes the
only free frame, and issues a Disk Manager read of the sentinel id. -/
theorem c6_fetch_sentinel_not_rejected :
    ∃ b2 : BufferPoolManager,
      (initBPM 1 2).fetchPage INVALID_PAGE_ID = some (some 0, b2) ∧
      ptLookup b2.page_table INVALID_PAGE_ID = some 0 ∧
      b2.free_list = [] ∧
      b2.disk_trace = [DiskOp.read INVALID_PAGE_ID] := by
  refine ⟨_, rfl, ?_, ?_, ?_⟩ <;> decide

/-- C7: `new_page` returns the absent result exactly when the free list is
empty and no tracked node is evictable; and with `pool_size == 1`, the
first `new_page` succeeds (with page id 0) and an immediate second one
fails, leaving the state unchanged. -/
theorem c7_new_page_pool_exhaustion :
    (∀ b : BufferPoolManager,
        (∃ b2, b.newPage = some (none, b2)) ↔
          (b.free_list = [] ∧ ∀ e ∈ b.replacer.node_store, e.2.is_evictable = false)) ∧
    (initBPM 1 2).newPage = some (some 0, bpPinnedOne) ∧
    bpPinnedOne.newPage = some (none, bpPinnedOne) := by
  refine ⟨?_, by decide, by decide⟩
  intro b
  rw [newPage_none_iff b, evictChoice_none_iff]

/-- Witness for C7: instantiating the equivalence at a concrete exhausted
pool. -/
theorem c7_new_page_pool_exhaustion_witness :
    ∃ b2, (initBPM 0 2).newPage = some (none, b2) :=
  (c7_new_page_pool_exhaustion.1 (initBPM 0 2)).mpr ⟨rfl, by decide⟩

/-- C8: `delete_page` on a resident page with a nonzero pin count returns
false and returns the pool state exactly as it was — page table, free list,
replacer, frames, and disk trace included. -/
theorem c8_delete_pinned_returns_false_unchanged
    (b : BufferPoolManager) (pid : PageId) (fid : FrameId)
    (h1 : b.getPage pid = some fid) (h2 : (b.pageAt fid).pin_count ≠ 0) :
    b.deletePage pid = some (false, b) := by
  unfold BufferPoolManager.deletePage
  simp only [h1]
  rw [if_pos h2]

/-- Witness for C8 at a concrete pool with one pinned resident page. -/
theorem c8_delete_pinned_returns_false_unchanged_witness :
    bpPinnedOne.getPage 0 = some 0 ∧
    (bpPinnedOne.pageAt 0).pin_count ≠ 0 ∧
    bpPinnedOne.deletePage 0 = some (false, bpPinnedOne) :=
  ⟨by decide, by decide,
   c8_delete_pinned_returns_false_unchanged bpPinnedOne 0 0 (by decide) (by decide)⟩

/-- C9: after any sequence of replacer operations that completes from a
fresh replacer, `Size()` (the value of `curr_size_`) equals the number of
tracked nodes whose evictable flag is true. -/
theorem c9_curr_size_counts_evictable
    (num_frames k : Nat) (ops : List ReplacerOp) (r : LRUKReplacer)
    (h : (initReplacer num_frames k).runOps ops = some r) :
    r.size = countEvictable r.node_store := by
  have hinit : replacerInv (initReplacer num_frames k) := by
    unfold replacerInv
    rfl
  exact inv_runOps hinit h

/-- Witness for C9 on a concrete operation sequence. -/
theorem c9_curr_size_counts_evictable_witness :
    (initReplacer 10 2).runOps [ReplacerOp.record 0, ReplacerOp.setEvict 0 true] =
      some ⟨[(0, ⟨2, 0, [0], true⟩)], 1, 1, 10, 2⟩ ∧
    (LRUKReplacer.mk [(0, ⟨2, 0, [0], true⟩)] 1 1 10 2).size =
      countEvictable (LRUKReplacer.mk [(0, ⟨2, 0, [0], true⟩)] 1 1 10 2).node_store :=
  ⟨by decide,
   c9_curr_size_counts_evictable 10 2 [ReplacerOp.record 0, ReplacerOp.setEvict 0 true] _
     (by decide)⟩

/-- C10: `RecordAccess` on an untracked frame while the store already holds
`replacer_size_` nodes first evicts; if nothing is evictable it returns
with the state unchanged (the access is dropped, no history recorded for
the frame), and if a victim is found the victim's node is erased and the
new frame is tracked with a single-entry history. -/
theorem c10_record_access_full_store
    (r : LRUKReplacer) (fid : FrameId)
    (hrange : fid < r.replacer_size)
    (hl : lookupNode r.node_store fid = none)
    (hfull : r.node_store.length = r.replacer_size) :
    ((∀ e ∈ r.node_store, e.2.is_evictable = false) → r.recordAccess fid = some r) ∧
    (∀ (v : FrameId) (rep : LRUKReplacer), r.evictOp = some (some v, rep) →
       ∃ r2, r.recordAccess fid = some r2 ∧
         r2.node_store =
           insertNode fid ⟨r.k, fid, [r.current_timestamp], false⟩ (eraseNode v r.node_store) ∧
         r2.current_timestamp = r.current_timestamp + 1) := by
  have hge : r.node_store.length ≥ r.replacer_size := le_of_eq hfull.symm
  constructor
  · intro hnone
    have hchoice : r.evictChoice = none := (evictChoice_none_iff r).mpr hnone
    have hop : r.evictOp = some (none, r) := by
      unfold LRUKReplacer.evictOp
      rw [hchoice]
    unfold LRUKReplacer.recordAccess
    rw [if_pos hrange]
    simp only [hl]
    rw [if_pos hge, hop]
  · intro v rep hvp
    have hrm : r.removeOp v = some rep := by
      unfold LRUKReplacer.evictOp at hvp
      cases hc : r.evictChoice with
      | none =>
        simp only [hc] at hvp
        exact absurd hvp (by simp)
      | some w =>
        simp only [hc] at hvp
        cases hr : r.removeOp w with
        | none => rw [hr] at hvp; exact Option.noConfusion hvp
        | some r3 =>
          simp only [hr] at hvp
          cases hvp
          exact hr
    obtain ⟨hstore, hts, hk⟩ := removeOp_store hrm
    refine ⟨rep.trackNew fid, ?_, ?_, ?_⟩
    · unfold LRUKReplacer.recordAccess
      rw [if_pos hrange]
      simp only [hl]
      rw [if_pos hge, hvp]
    · rw [trackNew_eq]
      show insertNode fid ⟨rep.k, fid, [rep.current_timestamp], false⟩ rep.node_store =
        insertNode fid ⟨r.k, fid, [r.current_timestamp], false⟩ (eraseNode v r.node_store)
      rw [hstore, hts, hk]
    · rw [trackNew_eq]
      show rep.current_timestamp + 1 = r.current_timestamp + 1
      rw [hts]

/-- Witness for C10 at a concrete full, non-evictable store. -/
theorem c10_record_access_full_store_witness :
    rFullStore.recordAccess 0 = some rFullStore :=
  (c10_record_access_full_store rFullStore 0 (by decide) (by decide) (by decide)).1 (by decide)

end BusTub
